import Mathlib

/-!
Verification development for the shield_exporter repository.

The Go source is shallowly embedded: pure computations become Lean
functions, the prometheus metric vectors become association lists from
label-value tuples to numeric values, the emission channel becomes an
explicit list of emitted items, and each collector's `Collect` becomes a
state-passing function parameterised by the backend fetch result (an
`Option`/`Except`, `none`/`error` standing for a failed HTTP call) and by
the wall-clock readings (the timestamp and the elapsed duration, which the
Go code obtains from `time.Now`).
-/

set_option autoImplicit false

namespace filters

/-- The eight known collector identifiers, from `filters/collectors_filter.go`. -/
def ArchivesCollector : String := "Archives"

def JobsCollector : String := "Jobs"

def RetentionPoliciesCollector : String := "RetentionPolicies"

def SchedulesCollector : String := "Schedules"

def StatusCollector : String := "Status"

def StoresCollector : String := "Stores"

def TargetsCollector : String := "Targets"

def TasksCollector : String := "Tasks"

def knownCollectors : List String :=
  [ArchivesCollector, JobsCollector, RetentionPoliciesCollector, SchedulesCollector,
   StatusCollector, StoresCollector, TargetsCollector, TasksCollector]

/-- Model of Go `strings.Trim(s, " ")`: remove leading and trailing runs of
the space character (and only the space character). -/
def trimSpacesList (cs : List Char) : List Char :=
  ((cs.dropWhile (fun c => c = ' ')).reverse.dropWhile (fun c => c = ' ')).reverse

def trimSpaces (s : String) : String :=
  String.mk (trimSpacesList s.toList)

/-- The error message built in the `default` branch of `NewCollectorsFilter`
(`\x60` is the backquote character used by the Go format string). -/
def unsupportedMsg (collectorName : String) : String :=
  "Collector filter \x60" ++ collectorName ++ "\x60 is not supported"

/-- Model of `collectorsEnabled[name] = true` on a Go `map[string]bool`:
the map is represented by its list of keys (all stored values are `true`). -/
def mapSetTrue (m : List String) (k : String) : List String :=
  if k ∈ m then m else m ++ [k]

/-- The loop body of `NewCollectorsFilter`: walk the configured list, trim
each entry, and either record the matching known identifier or fail with the
message naming the (untrimmed) offending entry. -/
def collectorsEnabledLoop (acc : List String) :
    List String → Except String (List String)
  | [] => Except.ok acc
  | collectorName :: rest =>
    if trimSpaces collectorName ∈ knownCollectors then
      collectorsEnabledLoop (mapSetTrue acc (trimSpaces collectorName)) rest
    else
      Except.error (unsupportedMsg collectorName)

/-- Model of `NewCollectorsFilter` from `filters/collectors_filter.go`:
returns the set of enabled collector names, or the first error. -/
def NewCollectorsFilter (fs : List String) : Except String (List String) :=
  collectorsEnabledLoop [] fs

/-- Model of `(*CollectorsFilter).Enabled`. -/
def Enabled (collectorsEnabled : List String) (collectorName : String) : Bool :=
  if collectorsEnabled.length = 0 then true
  else if collectorName ∈ collectorsEnabled then true
  else false

/-- Trimming following the words of the spec ("whitespace-trimmed"): remove
leading and trailing whitespace characters.  Compared against `trimSpaces`,
which is what the source actually does. -/
def trimWhitespace (s : String) : String :=
  String.mk
    (((s.toList.dropWhile Char.isWhitespace).reverse.dropWhile Char.isWhitespace).reverse)

end filters

namespace collectors

/-- A prometheus `GaugeVec`/`CounterVec` whose entries are integer counts:
an association list from label-value tuples to values.  `WithLabelValues(...).Inc()`
is `lmInc`; `Reset()` is replacement by `[]`. -/
abbrev LabelMap := List (List String × Nat)

def lmInc : LabelMap → List String → LabelMap
  | [], k => [(k, 1)]
  | (k0, v0) :: rest, k =>
    if k0 = k then (k0, v0 + 1) :: rest else (k0, v0) :: lmInc rest k

def lmLookup : LabelMap → List String → Nat
  | [], _ => 0
  | (k0, v0) :: rest, k => if k0 = k then v0 else lmLookup rest k

/-- A prometheus `SummaryVec`: an association list from label-value tuples to
the list of observed values. -/
abbrev ObsMap := List (List String × List Int)

def omObserve : ObsMap → List String → Int → ObsMap
  | [], k, d => [(k, [d])]
  | (k0, ds) :: rest, k, d =>
    if k0 = k then (k0, ds ++ [d]) :: rest else (k0, ds) :: omObserve rest k d

def omLookup : ObsMap → List String → List Int
  | [], _ => []
  | (k0, ds) :: rest, k => if k0 = k then ds else omLookup rest k

/-- A prometheus `GaugeVec` whose entries are set (not incremented):
`WithLabelValues(...).Set(v)` is `gmSet`. -/
abbrev GaugeMap := List (List String × Int)

def gmSet : GaugeMap → List String → Int → GaugeMap
  | [], k, v => [(k, v)]
  | (k0, v0) :: rest, k, v =>
    if k0 = k then (k0, v) :: rest else (k0, v0) :: gmSet rest k v

/-- An archive record as read by `archives_collector.go` (only the three
fields used for labelling). -/
structure Archive where
  Status : String
  StorePlugin : String
  TargetPlugin : String
deriving DecidableEq

/-- The mutable metric state of an `ArchivesCollector`. -/
structure ArchivesState where
  archivesTotal : LabelMap
  archivesScrapesTotal : Nat
  archivesScrapeErrorsTotal : Nat
  lastArchivesScrapeError : Nat
  lastArchivesScrapeTimestamp : Int
  lastArchivesScrapeDurationSeconds : Int
deriving DecidableEq

/-- One item sent on the `ch` channel by the archives collector; a vector
metric's `Collect` sends its whole series map. -/
inductive ArchivesEmission where
  | archivesTotal (series : LabelMap)
  | archivesScrapeErrorsTotal (v : Nat)
  | archivesScrapesTotal (v : Nat)
  | lastArchivesScrapeError (v : Nat)
  | lastArchivesScrapeTimestamp (v : Int)
  | lastArchivesScrapeDurationSeconds (v : Int)
deriving DecidableEq

def ArchivesEmission.isResource : ArchivesEmission → Bool
  | .archivesTotal _ => true
  | _ => false

/-- Model of `ArchivesCollector.reportTargetsMetrics`: reset the vector,
fetch (`none` = error), aggregate, emit.  The final `Nat` counts backend
list calls performed (the source calls `api.GetArchives` exactly once). -/
def ArchivesCollector.reportTargetsMetrics (s : ArchivesState)
    (fetch : Option (List Archive)) :
    ArchivesState × List ArchivesEmission × Bool × Nat :=
  let s0 := { s with archivesTotal := [] }
  match fetch with
  | none => (s0, [], true, 1)
  | some archives =>
    let m := archives.foldl
      (fun m a => lmInc m [a.Status, a.StorePlugin, a.TargetPlugin]) s0.archivesTotal
    ({ s0 with archivesTotal := m }, [ArchivesEmission.archivesTotal m], false, 1)

/-- Model of `ArchivesCollector.Collect`; `now` and `dur` stand for the
wall-clock readings taken by the source. -/
def ArchivesCollector.Collect (s : ArchivesState) (fetch : Option (List Archive))
    (now dur : Int) : ArchivesState × List ArchivesEmission × Nat :=
  let r := ArchivesCollector.reportTargetsMetrics s fetch
  let s1 := r.1
  let failed := r.2.2.1
  let errorMetric : Nat := if failed then 1 else 0
  let s2 := if failed then
      { s1 with archivesScrapeErrorsTotal := s1.archivesScrapeErrorsTotal + 1 }
    else s1
  let s3 := { s2 with archivesScrapesTotal := s2.archivesScrapesTotal + 1 }
  let s4 := { s3 with lastArchivesScrapeError := errorMetric }
  let s5 := { s4 with lastArchivesScrapeTimestamp := now }
  let s6 := { s5 with lastArchivesScrapeDurationSeconds := dur }
  (s6,
   r.2.1 ++
     [ArchivesEmission.archivesScrapeErrorsTotal s2.archivesScrapeErrorsTotal,
      ArchivesEmission.archivesScrapesTotal s3.archivesScrapesTotal,
      ArchivesEmission.lastArchivesScrapeError errorMetric,
      ArchivesEmission.lastArchivesScrapeTimestamp now,
      ArchivesEmission.lastArchivesScrapeDurationSeconds dur],
   r.2.2.2)

/-- Model of a goutils timestamp: the zero-value flag checked by `IsZero()`
and the unix seconds returned by `Time().Unix()`. -/
structure Timestamp where
  isZero : Bool
  unix : Int
deriving DecidableEq

/-- A task record as read by `tasks_collector.go`. -/
structure Task where
  Op : String
  Status : String
  StartedAt : Timestamp
  StoppedAt : Timestamp
deriving DecidableEq

structure TasksState where
  tasksTotal : LabelMap
  tasksDurationSeconds : ObsMap
  tasksScrapesTotal : Nat
  tasksScrapeErrorsTotal : Nat
  lastTasksScrapeError : Nat
  lastTasksScrapeTimestamp : Int
  lastTasksScrapeDurationSeconds : Int
deriving DecidableEq

inductive TasksEmission where
  | tasksTotal (series : LabelMap)
  | tasksDurationSeconds (series : ObsMap)
  | tasksScrapeErrorsTotal (v : Nat)
  | tasksScrapesTotal (v : Nat)
  | lastTasksScrapeError (v : Nat)
  | lastTasksScrapeTimestamp (v : Int)
  | lastTasksScrapeDurationSeconds (v : Int)
deriving DecidableEq

def TasksEmission.isResource : TasksEmission → Bool
  | .tasksTotal _ => true
  | .tasksDurationSeconds _ => true
  | _ => false

/-- The `for _, task := range tasks` loop body of `reportTasksMetrics`:
always count the task; observe its duration only when both timestamps are
non-zero and the span is non-negative. -/
def taskLoop : LabelMap × ObsMap → List Task → LabelMap × ObsMap
  | acc, [] => acc
  | (tm, dm), task :: rest =>
    let tm1 := lmInc tm [task.Op, task.Status]
    let dm1 :=
      if !task.StartedAt.isZero && !task.StoppedAt.isZero then
        let duration := task.StoppedAt.unix - task.StartedAt.unix
        if duration ≥ 0 then omObserve dm [task.Op, task.Status] duration else dm
      else dm
    taskLoop (tm1, dm1) rest

/-- Model of `TasksCollector.reportTasksMetrics`. -/
def TasksCollector.reportTasksMetrics (s : TasksState)
    (fetch : Option (List Task)) : TasksState × List TasksEmission × Bool :=
  let s0 := { s with tasksTotal := [], tasksDurationSeconds := [] }
  match fetch with
  | none => (s0, [], true)
  | some tasks =>
    let r := taskLoop (s0.tasksTotal, s0.tasksDurationSeconds) tasks
    ({ s0 with tasksTotal := r.1, tasksDurationSeconds := r.2 },
     [TasksEmission.tasksTotal r.1, TasksEmission.tasksDurationSeconds r.2], false)

/-- Model of `TasksCollector.Collect`. -/
def TasksCollector.Collect (s : TasksState) (fetch : Option (List Task))
    (now dur : Int) : TasksState × List TasksEmission :=
  let r := TasksCollector.reportTasksMetrics s fetch
  let s1 := r.1
  let failed := r.2.2
  let errorMetric : Nat := if failed then 1 else 0
  let s2 := if failed then
      { s1 with tasksScrapeErrorsTotal := s1.tasksScrapeErrorsTotal + 1 }
    else s1
  let s3 := { s2 with tasksScrapesTotal := s2.tasksScrapesTotal + 1 }
  let s4 := { s3 with lastTasksScrapeError := errorMetric }
  let s5 := { s4 with lastTasksScrapeTimestamp := now }
  let s6 := { s5 with lastTasksScrapeDurationSeconds := dur }
  (s6,
   r.2.1 ++
     [TasksEmission.tasksScrapeErrorsTotal s2.tasksScrapeErrorsTotal,
      TasksEmission.tasksScrapesTotal s3.tasksScrapesTotal,
      TasksEmission.lastTasksScrapeError errorMetric,
      TasksEmission.lastTasksScrapeTimestamp now,
      TasksEmission.lastTasksScrapeDurationSeconds dur])

/-- A schedule record; `schedules_collector.go` only uses the list length,
so the record contents are irrelevant to the embedding. -/
abbrev Schedule := Unit

structure SchedulesState where
  schedulesTotal : Nat
  schedulesScrapesTotal : Nat
  schedulesScrapeErrorsTotal : Nat
  lastSchedulesScrapeError : Nat
  lastSchedulesScrapeTimestamp : Int
  lastSchedulesScrapeDurationSeconds : Int
deriving DecidableEq

inductive SchedulesEmission where
  | schedulesTotal (v : Nat)
  | schedulesScrapeErrorsTotal (v : Nat)
  | schedulesScrapesTotal (v : Nat)
  | lastSchedulesScrapeError (v : Nat)
  | lastSchedulesScrapeTimestamp (v : Int)
  | lastSchedulesScrapeDurationSeconds (v : Int)
deriving DecidableEq

def SchedulesEmission.isResource : SchedulesEmission → Bool
  | .schedulesTotal _ => true
  | _ => false

/-- Model of `SchedulesCollector.reportSchedulesMetrics`: fetch, set the
scalar gauge to the list length, emit it.  No reset is needed for a plain
gauge.  The final `Nat` counts backend list calls (exactly one). -/
def SchedulesCollector.reportSchedulesMetrics (s : SchedulesState)
    (fetch : Option (List Schedule)) :
    SchedulesState × List SchedulesEmission × Bool × Nat :=
  match fetch with
  | none => (s, [], true, 1)
  | some schedules =>
    ({ s with schedulesTotal := schedules.length },
     [SchedulesEmission.schedulesTotal schedules.length], false, 1)

/-- Model of `SchedulesCollector.Collect`. -/
def SchedulesCollector.Collect (s : SchedulesState)
    (fetch : Option (List Schedule)) (now dur : Int) :
    SchedulesState × List SchedulesEmission × Nat :=
  let r := SchedulesCollector.reportSchedulesMetrics s fetch
  let s1 := r.1
  let failed := r.2.2.1
  let errorMetric : Nat := if failed then 1 else 0
  let s2 := if failed then
      { s1 with schedulesScrapeErrorsTotal := s1.schedulesScrapeErrorsTotal + 1 }
    else s1
  let s3 := { s2 with schedulesScrapesTotal := s2.schedulesScrapesTotal + 1 }
  let s4 := { s3 with lastSchedulesScrapeError := errorMetric }
  let s5 := { s4 with lastSchedulesScrapeTimestamp := now }
  let s6 := { s5 with lastSchedulesScrapeDurationSeconds := dur }
  (s6,
   r.2.1 ++
     [SchedulesEmission.schedulesScrapeErrorsTotal s2.schedulesScrapeErrorsTotal,
      SchedulesEmission.schedulesScrapesTotal s3.schedulesScrapesTotal,
      SchedulesEmission.lastSchedulesScrapeError errorMetric,
      SchedulesEmission.lastSchedulesScrapeTimestamp now,
      SchedulesEmission.lastSchedulesScrapeDurationSeconds dur],
   r.2.2.2)

/-- The `/v1/status/internal` snapshot from `status_collector.go`; the four
record lists are only measured by length, so their elements are irrelevant. -/
structure InternalStatus where
  PendingTasks : List Unit
  RunningTasks : List Unit
  ScheduleQueue : List Unit
  RunQueue : List Unit
deriving DecidableEq

structure StatusState where
  pendingTasksTotal : Nat
  runningTasksTotal : Nat
  scheduleQueueTotal : Nat
  runQueueTotal : Nat
  statusScrapesTotal : Nat
  statusScrapeErrorsTotal : Nat
  lastStatusScrapeError : Nat
  lastStatusScrapeTimestamp : Int
  lastStatusScrapeDurationSeconds : Int
deriving DecidableEq

inductive StatusEmission where
  | pendingTasksTotal (v : Nat)
  | runningTasksTotal (v : Nat)
  | scheduleQueueTotal (v : Nat)
  | runQueueTotal (v : Nat)
  | statusScrapeErrorsTotal (v : Nat)
  | statusScrapesTotal (v : Nat)
  | lastStatusScrapeError (v : Nat)
  | lastStatusScrapeTimestamp (v : Int)
  | lastStatusScrapeDurationSeconds (v : Int)
deriving DecidableEq

def StatusEmission.isResource : StatusEmission → Bool
  | .pendingTasksTotal _ => true
  | .runningTasksTotal _ => true
  | .scheduleQueueTotal _ => true
  | .runQueueTotal _ => true
  | _ => false

/-- Model of `StatusCollector.reportStatusMetrics`. -/
def StatusCollector.reportStatusMetrics (s : StatusState)
    (fetch : Option InternalStatus) : StatusState × List StatusEmission × Bool :=
  match fetch with
  | none => (s, [], true)
  | some internalStatus =>
    let s1 := { s with
      pendingTasksTotal := internalStatus.PendingTasks.length,
      runningTasksTotal := internalStatus.RunningTasks.length,
      scheduleQueueTotal := internalStatus.ScheduleQueue.length,
      runQueueTotal := internalStatus.RunQueue.length }
    (s1,
     [StatusEmission.pendingTasksTotal internalStatus.PendingTasks.length,
      StatusEmission.runningTasksTotal internalStatus.RunningTasks.length,
      StatusEmission.scheduleQueueTotal internalStatus.ScheduleQueue.length,
      StatusEmission.runQueueTotal internalStatus.RunQueue.length], false)

/-- Model of `StatusCollector.Collect`. -/
def StatusCollector.Collect (s : StatusState) (fetch : Option InternalStatus)
    (now dur : Int) : StatusState × List StatusEmission :=
  let r := StatusCollector.reportStatusMetrics s fetch
  let s1 := r.1
  let failed := r.2.2
  let errorMetric : Nat := if failed then 1 else 0
  let s2 := if failed then
      { s1 with statusScrapeErrorsTotal := s1.statusScrapeErrorsTotal + 1 }
    else s1
  let s3 := { s2 with statusScrapesTotal := s2.statusScrapesTotal + 1 }
  let s4 := { s3 with lastStatusScrapeError := errorMetric }
  let s5 := { s4 with lastStatusScrapeTimestamp := now }
  let s6 := { s5 with lastStatusScrapeDurationSeconds := dur }
  (s6,
   r.2.1 ++
     [StatusEmission.statusScrapeErrorsTotal s2.statusScrapeErrorsTotal,
      StatusEmission.statusScrapesTotal s3.statusScrapesTotal,
      StatusEmission.lastStatusScrapeError errorMetric,
      StatusEmission.lastStatusScrapeTimestamp now,
      StatusEmission.lastStatusScrapeDurationSeconds dur])

/-- Job status constants from the jobs collector source. -/
def PendingStatus : String := "pending"

def RunningStatus : String := "running"

def CanceledStatus : String := "canceled"

def FailedStatus : String := "failed"

def DoneStatus : String := "done"

/-- A job record as read by `reportJobsMetrics` (fields used for labels). -/
structure Job where
  Paused : Bool
  StorePlugin : String
  TargetPlugin : String
deriving DecidableEq

/-- A per-job health record returned by the `/v1/status/jobs` endpoint. -/
structure JobHealth where
  Name : String
  LastRun : Int
  NextRun : Int
  Status : String
  Paused : Bool
deriving DecidableEq

/-- Model of Go `strconv.FormatBool`. -/
def formatBool (b : Bool) : String := if b then "true" else "false"

/-- Substring test over character lists, modelling `strings.Contains`. -/
def listContainsSub (needle : List Char) : List Char → Bool
  | [] => needle.isEmpty
  | c :: rest => needle.isPrefixOf (c :: rest) || listContainsSub needle rest

/-- Model of `strings.Contains(err.Error(), "Error 501 Not Implemented")`. -/
def containsNotImplemented (e : String) : Bool :=
  listContainsSub "Error 501 Not Implemented".toList e.toList

/-- The `switch jobHealth.Status` mapping of the jobs collector. -/
def jobStatusValue (st : String) : Int :=
  if st = PendingStatus then 1
  else if st = RunningStatus then 2
  else if st = CanceledStatus then 3
  else if st = FailedStatus then 4
  else if st = DoneStatus then 5
  else 0

structure JobsState where
  jobLastRun : GaugeMap
  jobNextRun : GaugeMap
  jobStatus : GaugeMap
  jobPaused : GaugeMap
  jobsTotal : LabelMap
  jobsScrapesTotal : Nat
  jobsScrapeErrorsTotal : Nat
  lastJobsScrapeError : Nat
  lastJobsScrapeTimestamp : Int
  lastJobsScrapeDurationSeconds : Int
deriving DecidableEq

inductive JobsEmission where
  | jobsTotal (series : LabelMap)
  | jobLastRun (series : GaugeMap)
  | jobNextRun (series : GaugeMap)
  | jobStatus (series : GaugeMap)
  | jobPaused (series : GaugeMap)
  | jobsScrapeErrorsTotal (v : Nat)
  | jobsScrapesTotal (v : Nat)
  | lastJobsScrapeError (v : Nat)
  | lastJobsScrapeTimestamp (v : Int)
  | lastJobsScrapeDurationSeconds (v : Int)
deriving DecidableEq

/-- Whether an emission is one of the four per-job gauges (`job_last_run`,
`job_next_run`, `job_status`, `job_paused`). -/
def JobsEmission.isPerJobGauge : JobsEmission → Bool
  | .jobLastRun _ => true
  | .jobNextRun _ => true
  | .jobStatus _ => true
  | .jobPaused _ => true
  | _ => false

/-- The `for _, jobHealth := range jobsStatus` loop of `reportJobsMetrics`. -/
def jobsHealthLoop (s : JobsState) : List JobHealth → JobsState
  | [] => s
  | jobHealth :: rest =>
    let s1 := { s with
      jobLastRun := gmSet s.jobLastRun [jobHealth.Name] jobHealth.LastRun,
      jobNextRun := gmSet s.jobNextRun [jobHealth.Name] jobHealth.NextRun,
      jobStatus := gmSet s.jobStatus [jobHealth.Name] (jobStatusValue jobHealth.Status),
      jobPaused := gmSet s.jobPaused [jobHealth.Name] (if jobHealth.Paused then 1 else 0) }
    jobsHealthLoop s1 rest

/-- Model of `JobsCollector.reportJobsMetrics`: reset all five vectors,
fetch the jobs list, count by labels and emit `jobs_total`; then fetch the
jobs status: a "501 Not Implemented" error is silently skipped, any other
error fails the scrape, and on success the four per-job gauges are
populated and emitted. -/
def JobsCollector.reportJobsMetrics (s : JobsState)
    (jobsFetch : Option (List Job))
    (statusFetch : Except String (List JobHealth)) :
    JobsState × List JobsEmission × Bool :=
  let s0 := { s with
    jobLastRun := [], jobNextRun := [], jobStatus := [], jobPaused := [],
    jobsTotal := [] }
  match jobsFetch with
  | none => (s0, [], true)
  | some jobs =>
    let tm := jobs.foldl
      (fun m j => lmInc m [formatBool j.Paused, j.StorePlugin, j.TargetPlugin])
      s0.jobsTotal
    let s1 := { s0 with jobsTotal := tm }
    match statusFetch with
    | Except.error e =>
      if containsNotImplemented e then (s1, [JobsEmission.jobsTotal tm], false)
      else (s1, [JobsEmission.jobsTotal tm], true)
    | Except.ok jobsStatus =>
      let s2 := jobsHealthLoop s1 jobsStatus
      (s2,
       [JobsEmission.jobsTotal tm, JobsEmission.jobLastRun s2.jobLastRun,
        JobsEmission.jobNextRun s2.jobNextRun, JobsEmission.jobStatus s2.jobStatus,
        JobsEmission.jobPaused s2.jobPaused], false)

/-- Model of `JobsCollector.Collect`. -/
def JobsCollector.Collect (s : JobsState) (jobsFetch : Option (List Job))
    (statusFetch : Except String (List JobHealth)) (now dur : Int) :
    JobsState × List JobsEmission :=
  let r := JobsCollector.reportJobsMetrics s jobsFetch statusFetch
  let s1 := r.1
  let failed := r.2.2
  let errorMetric : Nat := if failed then 1 else 0
  let s2 := if failed then
      { s1 with jobsScrapeErrorsTotal := s1.jobsScrapeErrorsTotal + 1 }
    else s1
  let s3 := { s2 with jobsScrapesTotal := s2.jobsScrapesTotal + 1 }
  let s4 := { s3 with lastJobsScrapeError := errorMetric }
  let s5 := { s4 with lastJobsScrapeTimestamp := now }
  let s6 := { s5 with lastJobsScrapeDurationSeconds := dur }
  (s6,
   r.2.1 ++
     [JobsEmission.jobsScrapeErrorsTotal s2.jobsScrapeErrorsTotal,
      JobsEmission.jobsScrapesTotal s3.jobsScrapesTotal,
      JobsEmission.lastJobsScrapeError errorMetric,
      JobsEmission.lastJobsScrapeTimestamp now,
      JobsEmission.lastJobsScrapeDurationSeconds dur])

end collectors

namespace filters

theorem mem_mapSetTrue (m : List String) (k a : String) :
    a ∈ mapSetTrue m k ↔ a ∈ m ∨ a = k := by
  unfold mapSetTrue
  by_cases h : k ∈ m
  · simp only [h, if_true]
    constructor
    · exact fun ha => Or.inl ha
    · rintro (ha | rfl)
      · exact ha
      · exact h
  · simp [h]

theorem collectorsEnabledLoop_ok_mem (fs : List String) :
    ∀ (acc m : List String), collectorsEnabledLoop acc fs = Except.ok m →
      ∀ a, a ∈ m ↔ a ∈ acc ∨ a ∈ fs.map trimSpaces := by
  induction fs with
  | nil =>
    intro acc m h a
    simp only [collectorsEnabledLoop, Except.ok.injEq] at h
    subst h
    simp
  | cons n rest ih =>
    intro acc m h a
    simp only [collectorsEnabledLoop] at h
    by_cases hk : trimSpaces n ∈ knownCollectors
    · rw [if_pos hk] at h
      have := ih (mapSetTrue acc (trimSpaces n)) m h a
      rw [this, mem_mapSetTrue]
      simp only [List.map_cons, List.mem_cons]
      tauto
    · rw [if_neg hk] at h
      exact absurd h (by simp)

theorem collectorsEnabledLoop_ok_known (fs : List String) :
    ∀ (acc m : List String), collectorsEnabledLoop acc fs = Except.ok m →
      ∀ n ∈ fs, trimSpaces n ∈ knownCollectors := by
  induction fs with
  | nil => intro acc m _ n hn; exact absurd hn (by simp)
  | cons n rest ih =>
    intro acc m h x hx
    simp only [collectorsEnabledLoop] at h
    by_cases hk : trimSpaces n ∈ knownCollectors
    · rw [if_pos hk] at h
      rcases List.mem_cons.mp hx with rfl | hx'
      · exact hk
      · exact ih _ m h x hx'
    · rw [if_neg hk] at h
      exact absurd h (by simp)

theorem collectorsEnabledLoop_err_of_unknown (fs : List String) :
    ∀ (acc : List String),
      (∃ n ∈ fs, trimSpaces n ∉ knownCollectors) →
      ∃ n ∈ fs, trimSpaces n ∉ knownCollectors ∧
        collectorsEnabledLoop acc fs = Except.error (unsupportedMsg n) := by
  induction fs with
  | nil => intro acc h; exact absurd h (by simp)
  | cons n rest ih =>
    intro acc h
    by_cases hk : trimSpaces n ∈ knownCollectors
    · have h' : ∃ x ∈ rest, trimSpaces x ∉ knownCollectors := by
        rcases h with ⟨x, hx, hxk⟩
        rcases List.mem_cons.mp hx with rfl | hx'
        · exact absurd hk hxk
        · exact ⟨x, hx', hxk⟩
      rcases ih (mapSetTrue acc (trimSpaces n)) h' with ⟨x, hx, hxk, hloop⟩
      refine ⟨x, List.mem_cons_of_mem _ hx, hxk, ?_⟩
      simp only [collectorsEnabledLoop, if_pos hk]
      exact hloop
    · refine ⟨n, List.mem_cons_self _ _, hk, ?_⟩
      simp only [collectorsEnabledLoop, if_neg hk]

theorem collectorsEnabledLoop_ne_nil (fs : List String) :
    ∀ (acc m : List String), collectorsEnabledLoop acc fs = Except.ok m →
      acc ≠ [] → m ≠ [] := by
  intro acc m h hacc
  rcases acc with _ | ⟨a, acc'⟩
  · exact absurd rfl hacc
  · intro hm
    have := (collectorsEnabledLoop_ok_mem fs _ m h a).mpr (Or.inl (List.mem_cons_self _ _))
    rw [hm] at this
    exact absurd this (by simp)

end filters

namespace filters

theorem collectorsEnabledLoop_ok_of_known (fs : List String) :
    ∀ (acc : List String), (∀ n ∈ fs, trimSpaces n ∈ knownCollectors) →
      ∃ m, collectorsEnabledLoop acc fs = Except.ok m := by
  induction fs with
  | nil => intro acc _; exact ⟨acc, rfl⟩
  | cons n rest ih =>
    intro acc h
    have hk : trimSpaces n ∈ knownCollectors := h n (List.mem_cons_self _ _)
    have h' : ∀ x ∈ rest, trimSpaces x ∈ knownCollectors :=
      fun x hx => h x (List.mem_cons_of_mem _ hx)
    rcases ih (mapSetTrue acc (trimSpaces n)) h' with ⟨m, hm⟩
    refine ⟨m, ?_⟩
    simp only [collectorsEnabledLoop, if_pos hk]
    exact hm

theorem Enabled_of_mem (m : List String) (k : String) (h : k ∈ m) :
    Enabled m k = true := by
  unfold Enabled
  by_cases hl : m.length = 0
  · simp [hl]
  · simp [hl, h]

end filters

/-- C1: for every configured filter list accepted by `NewCollectorsFilter`,
`Enabled` returns true for all eight known kinds when the list is empty and
exactly for the kinds appearing (trimmed) in the list when it is non-empty;
and any list containing an entry that does not match one of the eight known
identifiers is rejected with an error message naming that offending entry. -/
theorem C1_collectors_filter_enabled (fs m : List String)
    (h : filters.NewCollectorsFilter fs = Except.ok m) :
    ((fs = [] → ∀ k ∈ filters.knownCollectors, filters.Enabled m k = true) ∧
     (fs ≠ [] → ∀ k, filters.Enabled m k = true ↔ k ∈ fs.map filters.trimSpaces)) ∧
    (∀ gs : List String,
      (∃ n ∈ gs, filters.trimSpaces n ∉ filters.knownCollectors) →
      ∃ n ∈ gs, filters.trimSpaces n ∉ filters.knownCollectors ∧
        filters.NewCollectorsFilter gs = Except.error (filters.unsupportedMsg n)) := by
  constructor
  · constructor
    · rintro rfl k _
      simp only [filters.NewCollectorsFilter, filters.collectorsEnabledLoop,
        Except.ok.injEq] at h
      subst h
      rfl
    · intro hne k
      have hmem := filters.collectorsEnabledLoop_ok_mem fs [] m h k
      simp only [List.not_mem_nil, false_or] at hmem
      have hmne : m ≠ [] := by
        rcases fs with _ | ⟨n, rest⟩
        · exact absurd rfl hne
        · simp only [filters.NewCollectorsFilter, filters.collectorsEnabledLoop] at h
          by_cases hk : filters.trimSpaces n ∈ filters.knownCollectors
          · rw [if_pos hk] at h
            have : filters.mapSetTrue [] (filters.trimSpaces n) =
                [filters.trimSpaces n] := by
              simp [filters.mapSetTrue]
            rw [this] at h
            exact filters.collectorsEnabledLoop_ne_nil rest _ m h (by simp)
          · rw [if_neg hk] at h
            exact absurd h (by simp)
      constructor
      · intro hen
        unfold filters.Enabled at hen
        by_cases hl : m.length = 0
        · exact absurd (List.length_eq_zero.mp hl) hmne
        · rw [if_neg hl] at hen
          by_cases hk : k ∈ m
          · exact hmem.mp hk
          · rw [if_neg hk] at hen
            exact absurd hen (by simp)
      · intro hk
        exact filters.Enabled_of_mem m k (hmem.mpr hk)
  · intro gs hgs
    rcases filters.collectorsEnabledLoop_err_of_unknown gs [] hgs with ⟨n, hn, hnk, hloop⟩
    exact ⟨n, hn, hnk, hloop⟩

/-- C1 witness: the three parts of C1 applied at concrete filter lists. -/
theorem C1_collectors_filter_enabled_witness :
    filters.Enabled [] filters.JobsCollector = true ∧
    (filters.Enabled ["Archives"] "Tasks" = true ↔
      "Tasks" ∈ (["Archives"] : List String).map filters.trimSpaces) ∧
    (∃ n ∈ (["Bogus"] : List String), filters.trimSpaces n ∉ filters.knownCollectors ∧
      filters.NewCollectorsFilter ["Bogus"] =
        Except.error (filters.unsupportedMsg n)) := by
  have h1 := C1_collectors_filter_enabled [] [] (by rfl)
  have h2 := C1_collectors_filter_enabled ["Archives"] ["Archives"] (by rfl)
  refine ⟨h1.1.1 rfl _ (by decide), h2.1.2 (by simp) "Tasks", h2.2 ["Bogus"] ?_⟩
  exact ⟨"Bogus", by simp, by decide⟩

/-- C2 counterexample: the entry made of a tab followed by `Archives` equals
the known identifier `Archives` after removing leading and trailing
whitespace, yet `NewCollectorsFilter` rejects it, because the source trims
only space characters (`strings.Trim(name, " ")`), not all whitespace. -/
theorem C2_trim_counterexample :
    filters.trimWhitespace "\tArchives" = filters.ArchivesCollector ∧
    filters.ArchivesCollector ∈ filters.knownCollectors ∧
    filters.NewCollectorsFilter ["\tArchives"] =
      Except.error (filters.unsupportedMsg "\tArchives") := by
  refine ⟨by decide, by decide, by rfl⟩

/-- C2 amended: every entry is trimmed of leading and trailing SPACE
characters only (not general whitespace) before being matched
case-sensitively against the eight known identifiers; a list whose entries
all equal a known identifier after space-trimming is accepted, and each
entry enables its trimmed kind. -/
theorem C2_trim_amended (fs : List String)
    (h : ∀ n ∈ fs, filters.trimSpaces n ∈ filters.knownCollectors) :
    ∃ m, filters.NewCollectorsFilter fs = Except.ok m ∧
      ∀ n ∈ fs, filters.Enabled m (filters.trimSpaces n) = true := by
  rcases filters.collectorsEnabledLoop_ok_of_known fs [] h with ⟨m, hm⟩
  refine ⟨m, hm, fun n hn => ?_⟩
  have hmem := filters.collectorsEnabledLoop_ok_mem fs [] m hm (filters.trimSpaces n)
  exact filters.Enabled_of_mem m _
    (hmem.mpr (Or.inr (List.mem_map_of_mem _ hn)))

/-- C2 amended witness: a space-padded `Archives` entry is accepted and
enables the Archives kind. -/
theorem C2_trim_amended_witness :
    ∃ m, filters.NewCollectorsFilter ["  Archives "] = Except.ok m ∧
      ∀ n ∈ (["  Archives "] : List String),
        filters.Enabled m (filters.trimSpaces n) = true :=
  C2_trim_amended ["  Archives "] (by decide)

/-- C3: every invocation of `Collect` (shown for the cited Archives and
Tasks collectors) increments `scrapes_total` by exactly one; exactly one of
the two outcomes holds: on fetch success `last_error` is set to 0 with the
error counter unchanged, on fetch failure `last_error` is set to 1 with the
error counter incremented by exactly one; in both cases `last_timestamp`
and `last_duration` are set and all five health metrics are emitted (as the
final five items of the output stream). -/
theorem C3_scrape_health_dichotomy :
    ∀ (sa : collectors.ArchivesState) (fa : Option (List collectors.Archive))
      (st : collectors.TasksState) (ft : Option (List collectors.Task))
      (now dur : Int),
      (let r := collectors.ArchivesCollector.Collect sa fa now dur
       r.1.archivesScrapesTotal = sa.archivesScrapesTotal + 1 ∧
       (match fa with
        | some _ => r.1.lastArchivesScrapeError = 0 ∧
            r.1.archivesScrapeErrorsTotal = sa.archivesScrapeErrorsTotal
        | none => r.1.lastArchivesScrapeError = 1 ∧
            r.1.archivesScrapeErrorsTotal = sa.archivesScrapeErrorsTotal + 1) ∧
       r.1.lastArchivesScrapeTimestamp = now ∧
       r.1.lastArchivesScrapeDurationSeconds = dur ∧
       ∃ pre, r.2.1 = pre ++
         [collectors.ArchivesEmission.archivesScrapeErrorsTotal
            r.1.archivesScrapeErrorsTotal,
          collectors.ArchivesEmission.archivesScrapesTotal
            r.1.archivesScrapesTotal,
          collectors.ArchivesEmission.lastArchivesScrapeError
            r.1.lastArchivesScrapeError,
          collectors.ArchivesEmission.lastArchivesScrapeTimestamp now,
          collectors.ArchivesEmission.lastArchivesScrapeDurationSeconds dur]) ∧
      (let r := collectors.TasksCollector.Collect st ft now dur
       r.1.tasksScrapesTotal = st.tasksScrapesTotal + 1 ∧
       (match ft with
        | some _ => r.1.lastTasksScrapeError = 0 ∧
            r.1.tasksScrapeErrorsTotal = st.tasksScrapeErrorsTotal
        | none => r.1.lastTasksScrapeError = 1 ∧
            r.1.tasksScrapeErrorsTotal = st.tasksScrapeErrorsTotal + 1) ∧
       r.1.lastTasksScrapeTimestamp = now ∧
       r.1.lastTasksScrapeDurationSeconds = dur ∧
       ∃ pre, r.2 = pre ++
         [collectors.TasksEmission.tasksScrapeErrorsTotal
            r.1.tasksScrapeErrorsTotal,
          collectors.TasksEmission.tasksScrapesTotal r.1.tasksScrapesTotal,
          collectors.TasksEmission.lastTasksScrapeError r.1.lastTasksScrapeError,
          collectors.TasksEmission.lastTasksScrapeTimestamp now,
          collectors.TasksEmission.lastTasksScrapeDurationSeconds dur]) := by
  intro sa fa st ft now dur
  constructor
  · cases fa with
    | none => exact ⟨rfl, ⟨rfl, rfl⟩, rfl, rfl, ⟨[], rfl⟩⟩
    | some archives =>
      refine ⟨rfl, ⟨rfl, rfl⟩, rfl, rfl, ?_⟩
      exact ⟨[collectors.ArchivesEmission.archivesTotal
        ((collectors.ArchivesCollector.Collect sa (some archives) now
          dur).1.archivesTotal)], rfl⟩
  · cases ft with
    | none => exact ⟨rfl, ⟨rfl, rfl⟩, rfl, rfl, ⟨[], rfl⟩⟩
    | some tasks =>
      refine ⟨rfl, ⟨rfl, rfl⟩, rfl, rfl, ?_⟩
      exact ⟨[collectors.TasksEmission.tasksTotal
          ((collectors.TasksCollector.Collect st (some tasks) now dur).1.tasksTotal),
        collectors.TasksEmission.tasksDurationSeconds
          ((collectors.TasksCollector.Collect st (some tasks) now
            dur).1.tasksDurationSeconds)], rfl⟩

/-- C4: on a failed backend fetch (`none`, e.g. HTTP 500) no
resource-specific family is emitted, the error counter is incremented,
`last_error` is set to 1 and the fetch is attempted exactly once (not
retried); for Schedules in particular the whole output is just the five
health metrics, with no `schedules_total` item. -/
theorem C4_fetch_failure_no_resource_families :
    ∀ (ss : collectors.SchedulesState) (sa : collectors.ArchivesState)
      (now dur : Int),
      (let r := collectors.SchedulesCollector.Collect ss none now dur
       r.2.1 =
         [collectors.SchedulesEmission.schedulesScrapeErrorsTotal
            (ss.schedulesScrapeErrorsTotal + 1),
          collectors.SchedulesEmission.schedulesScrapesTotal
            (ss.schedulesScrapesTotal + 1),
          collectors.SchedulesEmission.lastSchedulesScrapeError 1,
          collectors.SchedulesEmission.lastSchedulesScrapeTimestamp now,
          collectors.SchedulesEmission.lastSchedulesScrapeDurationSeconds dur] ∧
       (∀ e ∈ r.2.1, e.isResource = false) ∧
       r.1.schedulesScrapeErrorsTotal = ss.schedulesScrapeErrorsTotal + 1 ∧
       r.1.lastSchedulesScrapeError = 1 ∧
       r.2.2 = 1) ∧
      (let r := collectors.ArchivesCollector.Collect sa none now dur
       (∀ e ∈ r.2.1, e.isResource = false) ∧
       r.1.archivesScrapeErrorsTotal = sa.archivesScrapeErrorsTotal + 1 ∧
       r.1.lastArchivesScrapeError = 1 ∧
       r.2.2 = 1) := by
  intro ss sa now dur
  constructor
  · refine ⟨rfl, ?_, rfl, rfl, rfl⟩
    intro e he
    simp only [collectors.SchedulesCollector.Collect,
      collectors.SchedulesCollector.reportSchedulesMetrics, List.nil_append,
      List.mem_cons, List.not_mem_nil, or_false] at he
    rcases he with rfl | rfl | rfl | rfl | rfl <;> rfl
  · refine ⟨?_, rfl, rfl, rfl⟩
    intro e he
    simp only [collectors.ArchivesCollector.Collect,
      collectors.ArchivesCollector.reportTargetsMetrics, List.nil_append,
      List.mem_cons, List.not_mem_nil, or_false] at he
    rcases he with rfl | rfl | rfl | rfl | rfl <;> rfl

/-- C5: re-running `Collect` with an unchanged backend response yields the
same resource-specific label-to-count mapping (shown for the cited Archives
and Tasks collectors, including the Tasks duration summary); moreover the
mapping after a scrape does not depend on the prior state at all, since the
vectors are reset at the start of every scrape. -/
theorem C5_aggregation_idempotent :
    ∀ (sa sa' : collectors.ArchivesState) (fa : Option (List collectors.Archive))
      (st st' : collectors.TasksState) (ft : Option (List collectors.Task))
      (n1 d1 n2 d2 : Int),
      ((collectors.ArchivesCollector.Collect
          (collectors.ArchivesCollector.Collect sa fa n1 d1).1 fa n2 d2).1.archivesTotal
        = (collectors.ArchivesCollector.Collect sa fa n1 d1).1.archivesTotal ∧
       (collectors.ArchivesCollector.Collect sa' fa n1 d1).1.archivesTotal
        = (collectors.ArchivesCollector.Collect sa fa n1 d1).1.archivesTotal) ∧
      ((collectors.TasksCollector.Collect
          (collectors.TasksCollector.Collect st ft n1 d1).1 ft n2 d2).1.tasksTotal
        = (collectors.TasksCollector.Collect st ft n1 d1).1.tasksTotal ∧
       (collectors.TasksCollector.Collect
          (collectors.TasksCollector.Collect st ft n1 d1).1 ft n2 d2).1.tasksDurationSeconds
        = (collectors.TasksCollector.Collect st ft n1 d1).1.tasksDurationSeconds ∧
       (collectors.TasksCollector.Collect st' ft n1 d1).1.tasksTotal
        = (collectors.TasksCollector.Collect st ft n1 d1).1.tasksTotal ∧
       (collectors.TasksCollector.Collect st' ft n1 d1).1.tasksDurationSeconds
        = (collectors.TasksCollector.Collect st ft n1 d1).1.tasksDurationSeconds) := by
  intro sa sa' fa st st' ft n1 d1 n2 d2
  refine ⟨⟨?_, ?_⟩, ?_, ?_, ?_, ?_⟩
  · cases fa <;> rfl
  · cases fa <;> rfl
  · cases ft <;> rfl
  · cases ft <;> rfl
  · cases ft <;> rfl
  · cases ft <;> rfl

namespace collectors

theorem lmLookup_lmInc (m : LabelMap) (k k' : List String) :
    lmLookup (lmInc m k) k' = lmLookup m k' + (if k = k' then 1 else 0) := by
  induction m with
  | nil =>
    simp only [lmInc, lmLookup]
    by_cases h : k = k'
    · subst h; simp
    · simp [h]
  | cons p rest ih =>
    obtain ⟨k0, v0⟩ := p
    by_cases hk : k0 = k
    · subst hk
      by_cases h' : k0 = k'
      · subst h'
        simp [lmInc, lmLookup]
      · simp [lmInc, lmLookup, h']
    · by_cases h' : k0 = k'
      · subst h'
        have hkk : ¬ k = k0 := fun hh => hk hh.symm
        simp [lmInc, lmLookup, hk, hkk]
      · simp [lmInc, lmLookup, hk, h', ih]

theorem omLookup_omObserve (m : ObsMap) (k k' : List String) (d : Int) :
    omLookup (omObserve m k d) k' =
      omLookup m k' ++ (if k = k' then [d] else []) := by
  induction m with
  | nil =>
    simp only [omObserve, omLookup]
    by_cases h : k = k'
    · subst h; simp
    · simp [h]
  | cons p rest ih =>
    obtain ⟨k0, ds⟩ := p
    by_cases hk : k0 = k
    · subst hk
      by_cases h' : k0 = k'
      · subst h'
        simp [omObserve, omLookup]
      · simp [omObserve, omLookup, h']
    · by_cases h' : k0 = k'
      · subst h'
        have hkk : ¬ k = k0 := fun hh => hk hh.symm
        simp [omObserve, omLookup, hk, hkk]
      · simp [omObserve, omLookup, hk, h', ih]

theorem taskLoop_total_lookup (ts : List Task) :
    ∀ (tm : LabelMap) (dm : ObsMap) (k : List String),
      lmLookup (taskLoop (tm, dm) ts).1 k =
        lmLookup tm k +
          (ts.filter (fun t => decide ([t.Op, t.Status] = k))).length := by
  induction ts with
  | nil => intro tm dm k; simp [taskLoop]
  | cons t rest ih =>
    intro tm dm k
    simp only [taskLoop]
    rw [ih, lmLookup_lmInc]
    by_cases h : [t.Op, t.Status] = k
    · rw [List.filter_cons_of_pos (by simp [h]), if_pos h]
      simp only [List.length_cons]
      omega
    · rw [List.filter_cons_of_neg (by simp [h]), if_neg h]
      omega

theorem taskLoop_duration_lookup (ts : List Task) :
    ∀ (tm : LabelMap) (dm : ObsMap) (k : List String),
      omLookup (taskLoop (tm, dm) ts).2 k =
        omLookup dm k ++
          ((ts.filter (fun t => decide ([t.Op, t.Status] = k) &&
              (!t.StartedAt.isZero && !t.StoppedAt.isZero &&
               decide ((0 : Int) ≤ t.StoppedAt.unix - t.StartedAt.unix)))).map
            (fun t => t.StoppedAt.unix - t.StartedAt.unix)) := by
  induction ts with
  | nil => intro tm dm k; simp [taskLoop]
  | cons t rest ih =>
    intro tm dm k
    simp only [taskLoop]
    by_cases hz : (!t.StartedAt.isZero && !t.StoppedAt.isZero) = true
    · by_cases hd : (0 : Int) ≤ t.StoppedAt.unix - t.StartedAt.unix
      · rw [if_pos hz, if_pos (ge_iff_le.mpr hd), ih, omLookup_omObserve]
        by_cases h : [t.Op, t.Status] = k
        · rw [List.filter_cons_of_pos (by simp [h, hz, hd]), if_pos h]
          simp [List.append_assoc]
        · rw [List.filter_cons_of_neg (by simp [h]), if_neg h]
          simp
      · rw [if_pos hz, if_neg (fun hh => hd (ge_iff_le.mp hh)), ih,
            List.filter_cons_of_neg (by simp [hd])]
    · rw [if_neg hz, ih,
          List.filter_cons_of_neg (fun hc => by
            simp only [Bool.and_eq_true] at hc
            exact hz (by simp only [Bool.and_eq_true]; exact hc.2.1))]

end collectors

/-- C6: in a successful Tasks scrape, for every label key the list of
observed durations is exactly the spans of those task records whose start
and stop timestamps are both non-zero and whose span is non-negative (so a
record is observed iff it satisfies that condition); every record — dropped
from the duration aggregation or not — is still counted in `tasks_total`,
and no scrape error is recorded. -/
theorem C6_tasks_duration_observation :
    ∀ (s : collectors.TasksState) (tasks : List collectors.Task)
      (now dur : Int) (k : List String),
      (let r := collectors.TasksCollector.Collect s (some tasks) now dur
       collectors.omLookup r.1.tasksDurationSeconds k =
         ((tasks.filter (fun t => decide ([t.Op, t.Status] = k) &&
             (!t.StartedAt.isZero && !t.StoppedAt.isZero &&
              decide ((0 : Int) ≤ t.StoppedAt.unix - t.StartedAt.unix)))).map
           (fun t => t.StoppedAt.unix - t.StartedAt.unix)) ∧
       collectors.lmLookup r.1.tasksTotal k =
         (tasks.filter (fun t => decide ([t.Op, t.Status] = k))).length ∧
       r.1.lastTasksScrapeError = 0 ∧
       r.1.tasksScrapeErrorsTotal = s.tasksScrapeErrorsTotal) := by
  intro s tasks now dur k
  refine ⟨?_, ?_, rfl, rfl⟩
  · have h := collectors.taskLoop_duration_lookup tasks [] [] k
    simpa [collectors.omLookup] using h
  · have h := collectors.taskLoop_total_lookup tasks [] [] k
    simpa [collectors.lmLookup] using h

/-- C7: in a Jobs scrape whose primary jobs-list fetch succeeds, a
jobs-health status fetch failing with a "501 Not Implemented" error leaves
the per-job gauges absent from the stream and records no scrape error,
while any other status-fetch error leaves the per-job gauges absent AND
records a scrape error; the primary `jobs_total` family is emitted in both
cases (the stream is exactly `jobs_total` followed by the five health
metrics). -/
theorem C7_jobs_status_fetch_asymmetry :
    ∀ (s : collectors.JobsState) (jobs : List collectors.Job)
      (statusFetch : Except String (List collectors.JobHealth)) (now dur : Int),
      (let r := collectors.JobsCollector.Collect s (some jobs) statusFetch now dur
       match statusFetch with
       | Except.error e =>
         if collectors.containsNotImplemented e = true then
           r.1.lastJobsScrapeError = 0 ∧
           r.1.jobsScrapeErrorsTotal = s.jobsScrapeErrorsTotal ∧
           (∀ x ∈ r.2, x.isPerJobGauge = false) ∧
           r.2 = [collectors.JobsEmission.jobsTotal r.1.jobsTotal,
                  collectors.JobsEmission.jobsScrapeErrorsTotal
                    r.1.jobsScrapeErrorsTotal,
                  collectors.JobsEmission.jobsScrapesTotal r.1.jobsScrapesTotal,
                  collectors.JobsEmission.lastJobsScrapeError 0,
                  collectors.JobsEmission.lastJobsScrapeTimestamp now,
                  collectors.JobsEmission.lastJobsScrapeDurationSeconds dur]
         else
           r.1.lastJobsScrapeError = 1 ∧
           r.1.jobsScrapeErrorsTotal = s.jobsScrapeErrorsTotal + 1 ∧
           (∀ x ∈ r.2, x.isPerJobGauge = false) ∧
           r.2 = [collectors.JobsEmission.jobsTotal r.1.jobsTotal,
                  collectors.JobsEmission.jobsScrapeErrorsTotal
                    r.1.jobsScrapeErrorsTotal,
                  collectors.JobsEmission.jobsScrapesTotal r.1.jobsScrapesTotal,
                  collectors.JobsEmission.lastJobsScrapeError 1,
                  collectors.JobsEmission.lastJobsScrapeTimestamp now,
                  collectors.JobsEmission.lastJobsScrapeDurationSeconds dur]
       | Except.ok _ => True) := by
  intro s jobs statusFetch now dur
  cases statusFetch with
  | ok hs => trivial
  | error e =>
    by_cases h : collectors.containsNotImplemented e = true
    · simp only [h, if_true]
      refine ⟨?_, ?_, ?_, ?_⟩
      · simp [collectors.JobsCollector.Collect,
          collectors.JobsCollector.reportJobsMetrics, h]
      · simp [collectors.JobsCollector.Collect,
          collectors.JobsCollector.reportJobsMetrics, h]
      · intro x hx
        simp only [collectors.JobsCollector.Collect,
          collectors.JobsCollector.reportJobsMetrics, h, if_true,
          List.cons_append, List.nil_append, List.mem_cons,
          List.not_mem_nil, or_false] at hx
        rcases hx with rfl | rfl | rfl | rfl | rfl | rfl <;> rfl
      · simp [collectors.JobsCollector.Collect,
          collectors.JobsCollector.reportJobsMetrics, h]
    · have hf : collectors.containsNotImplemented e = false :=
        Bool.not_eq_true _ |>.mp h
      simp only [hf, Bool.false_eq_true, if_false]
      refine ⟨?_, ?_, ?_, ?_⟩
      · simp [collectors.JobsCollector.Collect,
          collectors.JobsCollector.reportJobsMetrics, hf]
      · simp [collectors.JobsCollector.Collect,
          collectors.JobsCollector.reportJobsMetrics, hf]
      · intro x hx
        simp only [collectors.JobsCollector.Collect,
          collectors.JobsCollector.reportJobsMetrics, hf, Bool.false_eq_true,
          if_false, List.cons_append, List.nil_append, List.mem_cons,
          List.not_mem_nil, or_false] at hx
        rcases hx with rfl | rfl | rfl | rfl | rfl | rfl <;> rfl
      · simp [collectors.JobsCollector.Collect,
          collectors.JobsCollector.reportJobsMetrics, hf]

/-- C8: starting from a fresh collector, a scrape whose backend returns
exactly the four archive records (done,storeA,targetA), (purged,storeA,targetB),
(done,storeB,targetA), (purged,storeB,targetB) emits an `archives_total`
family of exactly four series, each with value 1, with `archives_scrapes_total`
equal to 1 and `last_archives_scrape_error` equal to 0. -/
theorem C8_archives_end_to_end :
    (let s0 : collectors.ArchivesState := ⟨[], 0, 0, 0, 0, 0⟩
     let archives : List collectors.Archive :=
       [⟨"done", "storeA", "targetA"⟩, ⟨"purged", "storeA", "targetB"⟩,
        ⟨"done", "storeB", "targetA"⟩, ⟨"purged", "storeB", "targetB"⟩]
     let r := collectors.ArchivesCollector.Collect s0 (some archives) 100 2
     r.1.archivesTotal =
       [(["done", "storeA", "targetA"], 1), (["purged", "storeA", "targetB"], 1),
        (["done", "storeB", "targetA"], 1), (["purged", "storeB", "targetB"], 1)] ∧
     r.1.archivesTotal.length = 4 ∧
     (∀ p ∈ r.1.archivesTotal, p.2 = 1) ∧
     collectors.ArchivesEmission.archivesTotal r.1.archivesTotal ∈ r.2.1 ∧
     r.1.archivesScrapesTotal = 1 ∧
     r.1.lastArchivesScrapeError = 0) := by
  refine ⟨rfl, rfl, ?_, ?_, rfl, rfl⟩
  · decide
  · exact List.mem_cons_self _ _

/-- C9: in a successful Status scrape the four scalar gauges are set exactly
to the lengths of the `pending_tasks`, `running_tasks`, `schedule_queue`
and `run_queue` record lists of the fetched snapshot. -/
theorem C9_status_gauges_are_lengths :
    ∀ (s : collectors.StatusState) (st : collectors.InternalStatus)
      (now dur : Int),
      (let r := collectors.StatusCollector.Collect s (some st) now dur
       r.1.pendingTasksTotal = st.PendingTasks.length ∧
       r.1.runningTasksTotal = st.RunningTasks.length ∧
       r.1.scheduleQueueTotal = st.ScheduleQueue.length ∧
       r.1.runQueueTotal = st.RunQueue.length) := by
  intro s st now dur
  exact ⟨rfl, rfl, rfl, rfl⟩

/-- C10: every scrape's output stream (shown for the cited Archives, Tasks
and Status collectors) is the resource-specific families (present only on
fetch success) followed by the five health metrics in the fixed order
`scrape_errors_total`, `scrapes_total`, `last_error`, `last_timestamp`,
`last_duration`; in particular `scrape_errors_total` always precedes
`scrapes_total`. -/
theorem C10_emission_order :
    ∀ (sa : collectors.ArchivesState) (fa : Option (List collectors.Archive))
      (st : collectors.TasksState) (ft : Option (List collectors.Task))
      (ss : collectors.StatusState) (fs : Option collectors.InternalStatus)
      (now dur : Int),
      (let r := collectors.ArchivesCollector.Collect sa fa now dur
       ∃ rs, r.2.1 = rs ++
           [collectors.ArchivesEmission.archivesScrapeErrorsTotal
              r.1.archivesScrapeErrorsTotal,
            collectors.ArchivesEmission.archivesScrapesTotal
              r.1.archivesScrapesTotal,
            collectors.ArchivesEmission.lastArchivesScrapeError
              r.1.lastArchivesScrapeError,
            collectors.ArchivesEmission.lastArchivesScrapeTimestamp now,
            collectors.ArchivesEmission.lastArchivesScrapeDurationSeconds dur] ∧
         (∀ x ∈ rs, x.isResource = true) ∧
         (fa = none → rs = [])) ∧
      (let r := collectors.TasksCollector.Collect st ft now dur
       ∃ rs, r.2 = rs ++
           [collectors.TasksEmission.tasksScrapeErrorsTotal
              r.1.tasksScrapeErrorsTotal,
            collectors.TasksEmission.tasksScrapesTotal r.1.tasksScrapesTotal,
            collectors.TasksEmission.lastTasksScrapeError
              r.1.lastTasksScrapeError,
            collectors.TasksEmission.lastTasksScrapeTimestamp now,
            collectors.TasksEmission.lastTasksScrapeDurationSeconds dur] ∧
         (∀ x ∈ rs, x.isResource = true) ∧
         (ft = none → rs = [])) ∧
      (let r := collectors.StatusCollector.Collect ss fs now dur
       ∃ rs, r.2 = rs ++
           [collectors.StatusEmission.statusScrapeErrorsTotal
              r.1.statusScrapeErrorsTotal,
            collectors.StatusEmission.statusScrapesTotal r.1.statusScrapesTotal,
            collectors.StatusEmission.lastStatusScrapeError
              r.1.lastStatusScrapeError,
            collectors.StatusEmission.lastStatusScrapeTimestamp now,
            collectors.StatusEmission.lastStatusScrapeDurationSeconds dur] ∧
         (∀ x ∈ rs, x.isResource = true) ∧
         (fs = none → rs = [])) := by
  intro sa fa st ft ss fs now dur
  refine ⟨?_, ?_, ?_⟩
  · cases fa with
    | none => exact ⟨[], rfl, by simp, fun _ => rfl⟩
    | some archives =>
      refine ⟨[collectors.ArchivesEmission.archivesTotal
        ((collectors.ArchivesCollector.Collect sa (some archives) now
          dur).1.archivesTotal)], rfl, ?_, by simp⟩
      intro x hx
      rcases List.mem_singleton.mp hx with rfl
      rfl
  · cases ft with
    | none => exact ⟨[], rfl, by simp, fun _ => rfl⟩
    | some tasks =>
      refine ⟨[collectors.TasksEmission.tasksTotal
          ((collectors.TasksCollector.Collect st (some tasks) now dur).1.tasksTotal),
        collectors.TasksEmission.tasksDurationSeconds
          ((collectors.TasksCollector.Collect st (some tasks) now
            dur).1.tasksDurationSeconds)], rfl, ?_, by simp⟩
      intro x hx
      rcases List.mem_cons.mp hx with rfl | hx'
      · rfl
      · rcases List.mem_singleton.mp hx' with rfl
        rfl
  · cases fs with
    | none => exact ⟨[], rfl, by simp, fun _ => rfl⟩
    | some internalStatus =>
      refine ⟨[collectors.StatusEmission.pendingTasksTotal
          internalStatus.PendingTasks.length,
        collectors.StatusEmission.runningTasksTotal
          internalStatus.RunningTasks.length,
        collectors.StatusEmission.scheduleQueueTotal
          internalStatus.ScheduleQueue.length,
        collectors.StatusEmission.runQueueTotal
          internalStatus.RunQueue.length], rfl, ?_, by simp⟩
      intro x hx
      rcases List.mem_cons.mp hx with rfl | hx₁
      · rfl
      · rcases List.mem_cons.mp hx₁ with rfl | hx₂
        · rfl
        · rcases List.mem_cons.mp hx₂ with rfl | hx₃
          · rfl
          · rcases List.mem_singleton.mp hx₃ with rfl
            rfl
